import Mathlib

/-!
Verification of the TrueCast fact-check relayer (relayer.js).

The relayer listens for on-chain `FactCheckRequested` events, fetches the
article from a blob store, extracts claims and scores them through an LLM
broker, computes a bias score, aggregates, and submits a `fulfillFactCheck`
transaction.  This file shallowly embeds the relayer pipeline: external HTTP
services and the chain are oracles in an `Env` record, JavaScript numbers are
modelled as exact rationals (every numeric value the relayer manipulates in
the verified scenarios is exactly representable, and `NaN` is modelled by
`Option.none`), and fallible JavaScript code returns `Except`.
-/

namespace TrueCast

/-- Exact fractions with explicit numerator and denominator and no implicit
normalisation: every JavaScript number the relayer computes in the verified
scenarios is such an exact rational, and all observations made of them
(integrality, sign, floor after scaling, decimal printing) are functions of
the represented value.  Denominators are positive for every fraction the
embedding builds. -/
structure Frac where
  num : ℤ
  den : ℤ
deriving DecidableEq

def Frac.ofNat (n : ℕ) : Frac := ⟨n, 1⟩

def Frac.add (a b : Frac) : Frac := ⟨a.num * b.den + b.num * a.den, a.den * b.den⟩

def Frac.mul (a b : Frac) : Frac := ⟨a.num * b.num, a.den * b.den⟩

def Frac.div (a b : Frac) : Frac := ⟨a.num * b.den, a.den * b.num⟩

/-- Whether the represented value is negative. -/
def Frac.isNegVal (a : Frac) : Bool := a.num * a.den < 0

/-- Representation with both components nonnegative; same value for the
positive-denominator fractions the embedding builds. -/
def Frac.absNN (a : Frac) : Frac := ⟨a.num.natAbs, a.den.natAbs⟩

/-- JSON values as produced by `JSON.parse` in the relayer.  Object fields are
kept in insertion order, as JavaScript does for string keys. -/
inductive Json where
  | null : Json
  | bool : Bool → Json
  | num : Frac → Json
  | str : String → Json
  | arr : List Json → Json
  | obj : List (String × Json) → Json

/-- Whitespace characters recognised by both JSON and `String.prototype.trim`
on the inputs the relayer sees. -/
def isJsSpace (c : Char) : Bool :=
  c == ' ' || c == '\t' || c == '\n' || c == '\r'

/-- Model of `String.prototype.trim`: strip whitespace from both ends. -/
def trimJS (s : String) : String :=
  String.mk (((s.toList.dropWhile isJsSpace).reverse.dropWhile isJsSpace).reverse)

/-- Model of `.replace(/'/g, '"')`: map every single quote to a double quote. -/
def replaceQuotes (s : String) : String :=
  String.mk (s.toList.map fun c => if c = '\x27' then '"' else c)

/-- Model of `.replace(/%/g, "")`: delete every percent sign. -/
def stripPercent (s : String) : String :=
  String.mk (s.toList.filter fun c => c ≠ '%')

/-- Model of the regex `/\{[^}]*\}/s`: the first `\x7b`, the following
characters up to and including the first `\x7d` after it.  If the first
opening brace is never followed by a closing brace, no later one is either,
so the regex fails. -/
def takeUntilClose : List Char → Option (List Char)
  | [] => none
  | c :: rest =>
    if c = '\x7d' then some [c] else (takeUntilClose rest).map (c :: ·)

def matchFirstBraces (s : String) : Option String :=
  match s.toList.dropWhile (fun c => c ≠ '\x7b') with
  | [] => none
  | c :: rest => (takeUntilClose rest).map (fun body => String.mk (c :: body))

/-- Model of the greedy regex `/\{[\s\S]*\}/`: from the first `\x7b` to the
last `\x7d` of the string. -/
def matchGreedyBraces (s : String) : Option String :=
  match s.toList.dropWhile (fun c => c ≠ '\x7b') with
  | [] => none
  | cs =>
    let pre := (cs.reverse.dropWhile (fun c => c ≠ '\x7d')).reverse
    if pre.isEmpty then none else some (String.mk pre)

def digitsToNat (ds : List Char) : ℕ :=
  ds.foldl (fun a c => 10 * a + (c.toNat - 48)) 0

def hexDigitVal (c : Char) : Option ℕ :=
  if c.isDigit then some (c.toNat - 48)
  else if 'a' ≤ c ∧ c ≤ 'f' then some (c.toNat - 87)
  else if 'A' ≤ c ∧ c ≤ 'F' then some (c.toNat - 55)
  else none

def skipWs (cs : List Char) : List Char := cs.dropWhile isJsSpace

/-- JSON string body: characters after the opening quote, up to the closing
quote, with the escape sequences `JSON.parse` accepts. -/
def parseStringChars : List Char → Option (List Char × List Char)
  | [] => none
  | '"' :: rest => some ([], rest)
  | '\\' :: '"' :: rest => (parseStringChars rest).map fun p => ('"' :: p.1, p.2)
  | '\\' :: '\\' :: rest => (parseStringChars rest).map fun p => ('\\' :: p.1, p.2)
  | '\\' :: '/' :: rest => (parseStringChars rest).map fun p => ('/' :: p.1, p.2)
  | '\\' :: 'b' :: rest => (parseStringChars rest).map fun p => ('\x08' :: p.1, p.2)
  | '\\' :: 'f' :: rest => (parseStringChars rest).map fun p => ('\x0c' :: p.1, p.2)
  | '\\' :: 'n' :: rest => (parseStringChars rest).map fun p => ('\n' :: p.1, p.2)
  | '\\' :: 'r' :: rest => (parseStringChars rest).map fun p => ('\r' :: p.1, p.2)
  | '\\' :: 't' :: rest => (parseStringChars rest).map fun p => ('\t' :: p.1, p.2)
  | '\\' :: 'u' :: h1 :: h2 :: h3 :: h4 :: rest =>
    match hexDigitVal h1, hexDigitVal h2, hexDigitVal h3, hexDigitVal h4 with
    | some a, some b, some c, some d =>
      (parseStringChars rest).map fun p =>
        (Char.ofNat (4096 * a + 256 * b + 16 * c + d) :: p.1, p.2)
    | _, _, _, _ => none
  | '\\' :: _ => none
  | c :: rest => (parseStringChars rest).map fun p => (c :: p.1, p.2)

/-- JSON number grammar: optional minus, integer part without leading zeros,
optional fraction, optional exponent.  The value is an exact rational. -/
def parseExpAfter (r orig : List Char) : Frac × List Char :=
  let (neg, r1) :=
    match r with
    | '-' :: t => (true, t)
    | '+' :: t => (false, t)
    | _ => (false, r)
  let ds := r1.takeWhile Char.isDigit
  if ds.isEmpty then (⟨1, 1⟩, orig)
  else
    let e := digitsToNat ds
    (if neg then (⟨1, 10 ^ e⟩ : Frac) else (⟨10 ^ e, 1⟩ : Frac), r1.dropWhile Char.isDigit)

def parseExponent (cs : List Char) : Frac × List Char :=
  match cs with
  | 'e' :: r => parseExpAfter r cs
  | 'E' :: r => parseExpAfter r cs
  | _ => (⟨1, 1⟩, cs)

def parseNumber (cs : List Char) : Option (Frac × List Char) :=
  let (sgn, cs1) :=
    match cs with
    | '-' :: r => ((⟨-1, 1⟩ : Frac), r)
    | _ => ((⟨1, 1⟩ : Frac), cs)
  let intDs := cs1.takeWhile Char.isDigit
  let cs2 := cs1.dropWhile Char.isDigit
  if intDs.isEmpty then none
  else if intDs.length > 1 ∧ intDs.headD '1' = '0' then none
  else
    let (fracDs, cs3) :=
      match cs2 with
      | '.' :: r =>
        let f := r.takeWhile Char.isDigit
        if f.isEmpty then (([] : List Char), cs2) else (f, r.dropWhile Char.isDigit)
      | _ => (([] : List Char), cs2)
    let (expFactor, cs4) := parseExponent cs3
    some (Frac.mul
      (Frac.mul sgn
        (Frac.add ⟨digitsToNat intDs, 1⟩ (Frac.div ⟨digitsToNat fracDs, 1⟩ ⟨10 ^ fracDs.length, 1⟩)))
      expFactor, cs4)

mutual

/-- Recursive-descent JSON value grammar; the fuel argument dominates the
recursion and is instantiated with the input length plus one, which every
derivation respects since each recursive step consumes at least one
character. -/
def parseVal : ℕ → List Char → Option (Json × List Char)
  | 0, _ => none
  | fuel + 1, cs =>
    match skipWs cs with
    | [] => none
    | '"' :: rest => (parseStringChars rest).map fun p => (Json.str (String.mk p.1), p.2)
    | '\x7b' :: rest =>
      (match skipWs rest with
       | '\x7d' :: r => some (Json.obj [], r)
       | cs2 => parseMembers fuel cs2 [])
    | '[' :: rest =>
      (match skipWs rest with
       | ']' :: r => some (Json.arr [], r)
       | cs2 => parseElems fuel cs2 [])
    | 't' :: 'r' :: 'u' :: 'e' :: rest => some (Json.bool true, rest)
    | 'f' :: 'a' :: 'l' :: 's' :: 'e' :: rest => some (Json.bool false, rest)
    | 'n' :: 'u' :: 'l' :: 'l' :: rest => some (Json.null, rest)
    | cs2 => (parseNumber cs2).map fun p => (Json.num p.1, p.2)

def parseMembers : ℕ → List Char → List (String × Json) → Option (Json × List Char)
  | 0, _, _ => none
  | fuel + 1, cs, acc =>
    match cs with
    | '"' :: rest =>
      (match parseStringChars rest with
       | none => none
       | some (kcs, r1) =>
         match skipWs r1 with
         | ':' :: r2 =>
           (match parseVal fuel r2 with
            | none => none
            | some (v, r3) =>
              match skipWs r3 with
              | ',' :: r4 => parseMembers fuel (skipWs r4) (acc ++ [(String.mk kcs, v)])
              | '\x7d' :: r4 => some (Json.obj (acc ++ [(String.mk kcs, v)]), r4)
              | _ => none)
         | _ => none)
    | _ => none

def parseElems : ℕ → List Char → List Json → Option (Json × List Char)
  | 0, _, _ => none
  | fuel + 1, cs, acc =>
    match parseVal fuel cs with
    | none => none
    | some (v, r1) =>
      match skipWs r1 with
      | ',' :: r2 => parseElems fuel r2 (acc ++ [v])
      | ']' :: r2 => some (Json.arr (acc ++ [v]), r2)
      | _ => none

end

/-- Model of `JSON.parse`: parse one value and require only whitespace after
it; any failure is the thrown `SyntaxError`. -/
def parseJson (s : String) : Except String Json :=
  match parseVal (s.length + 1) s.toList with
  | none => Except.error "Unexpected token in JSON"
  | some (v, rest) =>
    if (skipWs rest).isEmpty then Except.ok v
    else Except.error "Unexpected token in JSON"

/-- JavaScript property access `o.k` on a parse result: objects keep the last
binding of a duplicated key; every non-object access is `undefined`. -/
def objGet (v : Json) (k : String) : Option Json :=
  match v with
  | Json.obj fields => ((fields.filter fun p => p.1 = k).getLast?).map Prod.snd
  | _ => none

/-- Least scaling power of ten that turns `a / b` into an integer; total
thanks to the search bound, which every denominator arising from the
relayer's decimal data satisfies. -/
def pow10ExpFor (a b : ℕ) : ℕ :=
  (((List.range 400).find? fun k => a * 10 ^ k % b = 0)).getD 0

def padZeros (s : String) (k : ℕ) : String :=
  String.mk (List.replicate (k - s.length) '0') ++ s

/-- JavaScript `String(n)` for the numbers the relayer handles: integer
values print without a point, other decimal fractions print exactly with no
trailing zeros.  A function of the represented value. -/
def numToString (q : Frac) : String :=
  if q.num % q.den = 0 then toString (q.num / q.den)
  else
    let sign := if Frac.isNegVal q then "-" else ""
    let a : ℕ := q.num.natAbs
    let b : ℕ := q.den.natAbs
    let k := pow10ExpFor a b
    let digits := a * 10 ^ k / b
    sign ++ toString (digits / 10 ^ k) ++ "." ++ padZeros (toString (digits % 10 ^ k)) k

/-- `⌊q * 100 + 1 / 2⌋` for a fraction with nonnegative components. -/
def scaledHalfUp (q : Frac) : ℕ :=
  (q.num.natAbs * 200 + q.den.natAbs) / (q.den.natAbs * 2)

def toFixed2Pos (q : Frac) : String :=
  let n := scaledHalfUp q
  toString (n / 100) ++ "." ++ padZeros (toString (n % 100)) 2

/-- JavaScript `n.toFixed(2)`: round to two decimals and always print both. -/
def toFixed2 (q : Frac) : String :=
  if Frac.isNegVal q then "-" ++ toFixed2Pos (Frac.absNN q) else toFixed2Pos (Frac.absNN q)

/-- JavaScript `parseFloat`: skip whitespace, optional sign, longest decimal
prefix with optional fraction and exponent; `none` models `NaN` (no digits at
all). -/
def parseFloatJS (s : String) : Option Frac :=
  let cs := s.toList.dropWhile isJsSpace
  let (sgn, cs1) :=
    match cs with
    | '-' :: r => ((⟨-1, 1⟩ : Frac), r)
    | '+' :: r => ((⟨1, 1⟩ : Frac), r)
    | _ => ((⟨1, 1⟩ : Frac), cs)
  let intDs := cs1.takeWhile Char.isDigit
  let cs2 := cs1.dropWhile Char.isDigit
  let (fracDs, cs3) :=
    match cs2 with
    | '.' :: r => (r.takeWhile Char.isDigit, r.dropWhile Char.isDigit)
    | _ => (([] : List Char), cs2)
  if intDs.isEmpty ∧ fracDs.isEmpty then none
  else
    let (expFactor, _) := parseExponent cs3
    some (Frac.mul
      (Frac.mul sgn
        (Frac.add ⟨digitsToNat intDs, 1⟩ (Frac.div ⟨digitsToNat fracDs, 1⟩ ⟨10 ^ fracDs.length, 1⟩)))
      expFactor)

def hexDigitChar (n : ℕ) : Char :=
  if n < 10 then Char.ofNat (48 + n) else Char.ofNat (87 + n)

def escapeJsonChar (c : Char) : List Char :=
  if c = '"' then ['\\', '"']
  else if c = '\\' then ['\\', '\\']
  else if c = '\x08' then ['\\', 'b']
  else if c = '\x0c' then ['\\', 'f']
  else if c = '\n' then ['\\', 'n']
  else if c = '\r' then ['\\', 'r']
  else if c = '\t' then ['\\', 't']
  else if c.toNat < 32 then
    ['\\', 'u', '0', '0', hexDigitChar (c.toNat / 16), hexDigitChar (c.toNat % 16)]
  else [c]

def quoteJson (s : String) : String :=
  "\"" ++ String.mk (s.toList.map escapeJsonChar).flatten ++ "\""

mutual

/-- Model of `JSON.stringify` on parse results: compact output, insertion
order of fields. -/
def stringifyVal : Json → String
  | Json.null => "null"
  | Json.bool true => "true"
  | Json.bool false => "false"
  | Json.num q => numToString q
  | Json.str s => quoteJson s
  | Json.arr xs => "[" ++ stringifyElems xs ++ "]"
  | Json.obj fs => "\x7b" ++ stringifyFields fs ++ "\x7d"

def stringifyElems : List Json → String
  | [] => ""
  | [x] => stringifyVal x
  | x :: y :: rest => stringifyVal x ++ "," ++ stringifyElems (y :: rest)

def stringifyFields : List (String × Json) → String
  | [] => ""
  | [(k, v)] => quoteJson k ++ ":" ++ stringifyVal v
  | (k, v) :: y :: rest => quoteJson k ++ ":" ++ stringifyVal v ++ "," ++ stringifyFields (y :: rest)

end

mutual

/-- JavaScript `String(v)` / template-literal coercion of a parse result. -/
def jsStringOf : Json → String
  | Json.null => "null"
  | Json.bool true => "true"
  | Json.bool false => "false"
  | Json.num q => numToString q
  | Json.str s => s
  | Json.arr xs => jsArrayStr xs
  | Json.obj _ => "[object Object]"

def jsArrayStr : List Json → String
  | [] => ""
  | [x] => jsStringOf x
  | x :: y :: rest => jsStringOf x ++ "," ++ jsArrayStr (y :: rest)

end

/-- JavaScript `String(v)` where the value may be `undefined`. -/
def jsStringOpt : Option Json → String
  | none => "undefined"
  | some v => jsStringOf v

/-- `a || b || ""` over possibly-absent strings: the empty string is the only
falsy string. -/
def jsOrFallback : Option String → String
  | some s => s
  | none => ""

def jsOrStr (a b : Option String) : String :=
  match a with
  | some s => if s = "" then jsOrFallback b else s
  | none => jsOrFallback b

/-- `s.endsWith("%")`. -/
def endsWithPct (s : String) : Bool := s.toList.getLast? = some '%'

/-- Reattach a trailing percent sign when missing. -/
def attachPct (s : String) : String := if endsWithPct s then s else s ++ "%"

/-- `n.toLocaleString()` under the default en-US locale: digits grouped in
threes by commas. -/
def groupDigitsAux : List Char → List Char
  | a :: b :: c :: d :: rest => a :: b :: c :: ',' :: groupDigitsAux (d :: rest)
  | l => l

def toLocaleStringInt (n : ℤ) : String :=
  (if n < 0 then "-" else "") ++
    String.mk ((groupDigitsAux (toString n.natAbs).toList.reverse).reverse)

/-- Shape of the broker's HTTP reply body (`resp.data`): an absent `success`
field is falsy, `response.content` is the model text when present, and
`result` is the legacy text field. -/
structure RespBody where
  content : Option String

structure BrokerBody where
  success : Bool
  response : Option RespBody
  result : Option String

/-- One outbound call of the relayer, in issue order.  A `chainTx` entry means
a `fulfillFactCheck` transaction was accepted on-chain. -/
inductive Call where
  | blobGet : String → Call
  | searchGet : String → Call
  | brokerPost : String → Call
  | chainTx : ℕ → String → String → Call
deriving DecidableEq

def Call.isChainTx : Call → Bool
  | Call.chainTx _ _ _ => true
  | _ => false

/-- The relayer's external world: the Walrus gateway (status and body of the
GET), SerpAPI (status and the optional `total_results` field), the inference
broker keyed by the prompt it is sent, and transaction submission together
with its confirmation. -/
structure Env where
  blob : String → Except String (ℕ × String)
  search : String → Except String (ℕ × Option ℤ)
  broker : String → Except String BrokerBody
  submit : ℕ → String → String → Except String Unit

/-- Sequence two traced fallible steps, concatenating their call traces. -/
def pbind {α β : Type} :
    List Call × Except String α → (α → List Call × Except String β) →
    List Call × Except String β
  | (t, Except.error e), _ => (t, Except.error e)
  | (t, Except.ok a), f => (t ++ (f a).1, (f a).2)

/-- Prompt of `extractClaims`, built from its template literal and trimmed. -/
def extractPrompt (article : String) : String :=
  trimJS ("\nYou are given the following article. \nRemove all the irrelevant informations and only keep subject related informations.\nExtract each factual assertion made in it as a separate claim.\nReturn at MOST top 1 claim made by the journalist.\nRespond ONLY with valid JSON in the format: \n\x7b\"claims\": [\"<claim1>\", \"<claim2>\", ...]\x7d\n\nArticle:\n\"\"\"" ++ article ++ "\"\"\"\n  ")

/-- Prompt of `scoreClaim`; the claim is coerced by the template literal and
the result count printed with `toLocaleString`. -/
def scorePrompt (claim : Json) (totalResults : ℤ) : String :=
  trimJS ("\n                Context:\n                Google search for \"" ++ jsStringOf claim ++ "\" returned approximately " ++ toLocaleStringInt totalResults ++ " results.\n\n                Claim:\n                " ++ jsStringOf claim ++ "\n\n                Respond ONLY with a valid JSON with this format:\n                \x7b\x27Fact_score\x27: <number%>\x7d\n                ")

/-- Prompt of `computeBiasScore`. -/
def biasPrompt (article : String) : String :=
  trimJS ("\nYou are given the following article. Assess the journalist\x27s bias on a scale of 0% (completely objective) to 100% (highly biased).\nRespond ONLY with valid JSON in this format:\n\x7b\x27bias_score\x27: <number%>\x7d\n\nArticle:\n\"\"\"" ++ article ++ "\"\"\"\n  ")

/-- Result of `fetchArticleByHash`: GET the gateway URL, require status 200. -/
def fetchArticleRes (env : Env) (uri : String) : Except String String :=
  match env.blob uri with
  | Except.error e => Except.error e
  | Except.ok (status, body) =>
    if status ≠ 200 then
      Except.error ("Failed to fetch article from Walrus: " ++ toString status)
    else Except.ok body

/-- `fetchArticleByHash`, with its outbound call recorded. -/
def fetchArticleByHash (env : Env) (uri : String) : List Call × Except String String :=
  ([Call.blobGet uri], fetchArticleRes env uri)

/-- Result of `fetchTotalResults`: query SerpAPI for the claim text, require
status 200 and a non-null `total_results`. -/
def fetchTotalRes (env : Env) (claim : Json) : Except String ℤ :=
  match env.search (jsStringOf claim) with
  | Except.error e => Except.error e
  | Except.ok (status, total) =>
    if status ≠ 200 then Except.error "SerpAPI error"
    else
      match total with
      | none => Except.error "Could not read total_results from SerpAPI response"
      | some t => Except.ok t

def fetchTotalResults (env : Env) (claim : Json) : List Call × Except String ℤ :=
  ([Call.searchGet (jsStringOf claim)], fetchTotalRes env claim)

/-- The content selection of `extractClaims`:
`resp.data.response?.content || resp.data.result || ""`. -/
def contentOf (raw : BrokerBody) : String :=
  jsOrStr (raw.response.bind RespBody.content) raw.result

/-- Result of `extractClaims`: prompt the broker, pick the content (new style
or legacy `result`), locate the greedy brace match, `JSON.parse` it and
require a `claims` array, which is returned unchanged. -/
def extractClaimsRes (env : Env) (article : String) : Except String (List Json) :=
  match env.broker (extractPrompt article) with
  | Except.error e => Except.error e
  | Except.ok raw =>
    if trimJS (contentOf raw) = "" then
      Except.error "extractClaims: No content found in broker response"
    else
      match matchGreedyBraces (contentOf raw) with
      | none => Except.error "No JSON object found in extractClaims response"
      | some m =>
        match parseJson m with
        | Except.error e => Except.error e
        | Except.ok obj =>
          match objGet obj "claims" with
          | some (Json.arr cs) => Except.ok cs
          | _ => Except.error "extractClaims JSON missing claims array"

def extractClaims (env : Env) (article : String) : List Call × Except String (List Json) :=
  ([Call.brokerPost (extractPrompt article)], extractClaimsRes env article)

/-- The claims array determined by a broker reply alone: content selection,
greedy brace match, JSON parse and the `claims` field. -/
def parsedClaims (raw : BrokerBody) : Option (List Json) :=
  if trimJS (contentOf raw) = "" then none
  else
    match matchGreedyBraces (contentOf raw) with
    | none => none
    | some m =>
      match parseJson m with
      | Except.error _ => none
      | Except.ok obj =>
        match objGet obj "claims" with
        | some (Json.arr cs) => some cs
        | _ => none

/-- The pure tail of `scoreClaim`: first brace match, single quotes to double
quotes, trim, strip percents, `JSON.parse`, require a numeric or string
`Fact_score`, reattach a trailing percent. -/
def parseFactScoreText (resultText : String) : Except String String :=
  match matchFirstBraces resultText with
  | none => Except.error "No JSON found in DeepSeek response"
  | some m =>
    let jsonString := trimJS (replaceQuotes m)
    let jsonForParse := stripPercent jsonString
    match parseJson jsonForParse with
    | Except.error e => Except.error ("Invalid JSON from DeepSeek: " ++ e)
    | Except.ok parsed =>
      match objGet parsed "Fact_score" with
      | some (Json.num q) => Except.ok (attachPct (numToString q))
      | some (Json.str s) => Except.ok (attachPct s)
      | _ => Except.error "Invalid JSON from DeepSeek: Fact_score missing or invalid"

/-- Result of `scoreClaim`: prompt the broker with the claim and result
count, require a successful reply whose `response.content` is a string (the
legacy `result` field is not consulted here), then parse the score. -/
def scoreClaimRes (env : Env) (claim : Json) (totalResults : ℤ) : Except String String :=
  match env.broker (scorePrompt claim totalResults) with
  | Except.error e => Except.error e
  | Except.ok raw =>
    if raw.success = false then Except.error "Bad broker response format"
    else
      match raw.response with
      | none => Except.error "Bad broker response format"
      | some rb =>
        match rb.content with
        | none => Except.error "Bad broker response format"
        | some resultText => parseFactScoreText resultText

def scoreClaim (env : Env) (claim : Json) (totalResults : ℤ) : List Call × Except String String :=
  ([Call.brokerPost (scorePrompt claim totalResults)], scoreClaimRes env claim totalResults)

/-- `computeBiasScore`: prompt the broker with the full article, require a
non-empty `response.content` (no legacy fallback), first brace match, quote
normalisation and percent stripping before the parse, and reattach a percent
to `String(parsed.bias_score)` (which is "undefined" when the field is
absent, faithful to the missing validation in the source). -/
def biasScoreRes (env : Env) (article : String) : Except String String :=
  match env.broker (biasPrompt article) with
  | Except.error e => Except.error e
  | Except.ok raw =>
    match raw.response.bind RespBody.content with
    | none => Except.error "No content in DeepSeek response for computeBiasScore"
    | some content =>
      if content = "" then Except.error "No content in DeepSeek response for computeBiasScore"
      else
        match matchFirstBraces content with
        | none => Except.error "No JSON object found in computeBiasScore response"
        | some m =>
          match parseJson (trimJS (stripPercent (replaceQuotes m))) with
          | Except.error e => Except.error e
          | Except.ok parsed => Except.ok (attachPct (jsStringOpt (objGet parsed "bias_score")))

def computeBiasScore (env : Env) (article : String) : List Call × Except String String :=
  ([Call.brokerPost (biasPrompt article)], biasScoreRes env article)

/-- The `for (const claim of claims)` loop of `handleArticle`: search count
then score, pushing `\x7bclaim, score\x7d` in order. -/
def scoreLoop (env : Env) : List Json → List Call × Except String (List (Json × String))
  | [] => ([], Except.ok [])
  | claim :: rest =>
    pbind (fetchTotalResults env claim) fun total =>
    pbind (scoreClaim env claim total) fun score =>
    pbind (scoreLoop env rest) fun tail =>
    ([], Except.ok ((claim, score) :: tail))

def addOpt : Option Frac → Option Frac → Option Frac
  | some a, some b => some (Frac.add a b)
  | _, _ => none

/-- `nums.reduce((a, b) => a + b, 0)` where `none` is `NaN`. -/
def sumOpt (l : List (Option Frac)) : Option Frac := l.foldl addOpt (some ⟨0, 1⟩)

/-- `x || 0` applied to the average: `NaN` (and `0` itself) collapse to 0. -/
def jsOrZero : Option Frac → Frac
  | none => ⟨0, 1⟩
  | some q => q

/-- The aggregation step of `handleArticle`:
`(nums.reduce((a,b) => a+b, 0) / nums.length || 0).toFixed(2) + "%"`. -/
def overallScoreOf (scored : List (Json × String)) : String :=
  let nums := scored.map fun c => parseFloatJS c.2
  let avg : Option Frac :=
    if nums.length = 0 then none
    else (sumOpt nums).map fun s => Frac.div s (Frac.ofNat nums.length)
  toFixed2 (jsOrZero avg) ++ "%"

/-- The arithmetic mean of a list of fractions: sum divided by length. -/
def fracMean (qs : List Frac) : Frac :=
  Frac.div (qs.foldl Frac.add ⟨0, 1⟩) (Frac.ofNat qs.length)

/-- The explanation payload `\x7bclaims: scored, overallScore, biasScore\x7d`. -/
def payloadJson (scored : List (Json × String)) (overall bias : String) : Json :=
  Json.obj
    [("claims", Json.arr (scored.map fun c => Json.obj [("claim", c.1), ("score", Json.str c.2)])),
     ("overallScore", Json.str overall),
     ("biasScore", Json.str bias)]

/-- `writeContract.fulfillFactCheck(...)` followed by `tx.wait()`: a `chainTx`
trace entry records a transaction accepted on-chain, so a failed submission
leaves no entry. -/
def submitTx (env : Env) (requestId : ℕ) (verdict explanation : String) :
    List Call × Except String Unit :=
  match env.submit requestId verdict explanation with
  | Except.error e => ([], Except.error e)
  | Except.ok _ => ([Call.chainTx requestId verdict explanation], Except.ok ())

/-- `handleArticle`: the five sequential stages — fetch, extract, score loop,
aggregate (pure), bias, submit. -/
def handleArticle (env : Env) (requestId : ℕ) (uri : String) :
    List Call × Except String Unit :=
  pbind (fetchArticleByHash env uri) fun article =>
  pbind (extractClaims env article) fun claims =>
  pbind (scoreLoop env claims) fun scored =>
  pbind (computeBiasScore env article) fun biasScore =>
  submitTx env requestId (overallScoreOf scored)
    (stringifyVal (payloadJson scored (overallScoreOf scored) biasScore))

/-- The `FactCheckRequested` listener: run `handleArticle` and catch any
error, which is only logged (returned here as the logged message). -/
def onFactCheckRequested (env : Env) (requestId : ℕ) (uri : String) :
    List Call × Option String :=
  match handleArticle env requestId uri with
  | (t, Except.ok _) => (t, none)
  | (t, Except.error e) => (t, some e)

/-- The startup configuration surface: the four required variables. -/
structure EnvVars where
  alchemyUrl : Option String
  walrusGatewayUrl : Option String
  relayerPrivateKey : Option String
  factcheckContract : Option String

/-- JavaScript truthiness of an environment variable: set and non-empty. -/
def truthyEnv : Option String → Bool
  | none => false
  | some s => if s = "" then false else true

inductive StartupResult where
  | exited : ℕ → StartupResult
  | listening : StartupResult
deriving DecidableEq

/-- The top of the module: `process.exit(1)` when any required variable is
falsy, otherwise execution reaches the event-listener registration. -/
def startup (e : EnvVars) : StartupResult :=
  if truthyEnv e.alchemyUrl = false ∨ truthyEnv e.relayerPrivateKey = false ∨
      truthyEnv e.factcheckContract = false ∨ truthyEnv e.walrusGatewayUrl = false
  then StartupResult.exited 1
  else StartupResult.listening

def exceptIsOk {α : Type} : Except String α → Bool
  | Except.ok _ => true
  | Except.error _ => false

/-- A traced step that contributes a `chainTx` entry only when it succeeds. -/
def TxOnlyOnOk {α : Type} (x : List Call × Except String α) : Prop :=
  ∀ e, x.2 = Except.error e → ∀ c ∈ x.1, c.isChainTx = false

/-! Concrete scenarios used by the claims. -/

/-- The end-to-end scenario of the spec (requestId 7, uri "blob123"). -/
def c2Article : String := "Paris is the capital of France. I think it\x27s beautiful."

def c2Claim : Json := Json.str "Paris is the capital of France."

def c2ExtractBody : BrokerBody :=
  ⟨true, some ⟨some "\x7b\"claims\": [\"Paris is the capital of France.\"]\x7d"⟩, none⟩

def c2ScoreBody : BrokerBody := ⟨true, some ⟨some "\x7b\x27Fact_score\x27: 97%\x7d"⟩, none⟩

def c2BiasBody : BrokerBody := ⟨true, some ⟨some "\x7b\x27bias_score\x27: 5%\x7d"⟩, none⟩

def c2Env : Env where
  blob := fun uri =>
    if uri = "blob123" then Except.ok (200, c2Article) else Except.error "404"
  search := fun _ => Except.ok (200, some 50000000)
  broker := fun p =>
    if p = extractPrompt c2Article then Except.ok c2ExtractBody
    else if p = scorePrompt c2Claim 50000000 then Except.ok c2ScoreBody
    else if p = biasPrompt c2Article then Except.ok c2BiasBody
    else Except.error "unexpected prompt"
  submit := fun _ _ _ => Except.ok ()

/-- The explanation string submitted in the end-to-end scenario. -/
def c2Payload : String :=
  "\x7b\"claims\":[\x7b\"claim\":\"Paris is the capital of France.\",\"score\":\"97%\"\x7d],\"overallScore\":\"97.00%\",\"biasScore\":\"5%\"\x7d"

/-- What the explanation must deserialize to. -/
def c2Explanation : Json :=
  Json.obj
    [("claims", Json.arr
        [Json.obj [("claim", Json.str "Paris is the capital of France."),
                   ("score", Json.str "97%")]]),
     ("overallScore", Json.str "97.00%"),
     ("biasScore", Json.str "5%")]

/-- A broker reply whose `claims` array has two entries. -/
def c3Body : BrokerBody := ⟨true, some ⟨some "\x7b\"claims\": [\"a\", \"b\"]\x7d"⟩, none⟩

def c3Env : Env where
  blob := fun _ => Except.error "unused"
  search := fun _ => Except.ok (200, some 10)
  broker := fun _ => Except.ok c3Body
  submit := fun _ _ _ => Except.ok ()

/-- A scoring reply used to drive the loop over both claims of `c3Body`. -/
def c3ScoreBody : BrokerBody := ⟨true, some ⟨some "\x7b\x27Fact_score\x27: 50%\x7d"⟩, none⟩

def c3wEnv : Env where
  blob := fun _ => Except.ok (200, "article")
  search := fun _ => Except.ok (200, some 10)
  broker := fun p =>
    if p = extractPrompt "article" then Except.ok c3Body else Except.ok c3ScoreBody
  submit := fun _ _ _ => Except.ok ()

/-- A scoring reply whose content has no brace-delimited substring. -/
def c5ExtractBody : BrokerBody := ⟨true, some ⟨some "\x7b\"claims\": [\"c\"]\x7d"⟩, none⟩

def c5ScoreBody : BrokerBody := ⟨true, some ⟨some "no json here"⟩, none⟩

def c5Env : Env where
  blob := fun _ => Except.ok (200, "art")
  search := fun _ => Except.ok (200, some 5)
  broker := fun p =>
    if p = extractPrompt "art" then Except.ok c5ExtractBody
    else if p = scorePrompt (Json.str "c") 5 then Except.ok c5ScoreBody
    else Except.error "unexpected prompt"
  submit := fun _ _ _ => Except.ok ()

/-- A blob store answering with a non-success status. -/
def c6Env : Env where
  blob := fun _ => Except.ok (404, "Not Found")
  search := fun _ => Except.error "unreachable"
  broker := fun _ => Except.error "unreachable"
  submit := fun _ _ _ => Except.error "unreachable"

/-- A blob store whose GET throws. -/
def c7Env : Env where
  blob := fun _ => Except.error "Walrus down"
  search := fun _ => Except.error "unreachable"
  broker := fun _ => Except.error "unreachable"
  submit := fun _ _ _ => Except.error "unreachable"

/-- A legacy-style broker reply: no `response` object, text in `result`. -/
def c8Body : BrokerBody := ⟨true, none, some "\x7b\"claims\": [\"Paris is old\"]\x7d"⟩

def c8Env : Env where
  blob := fun _ => Except.error "unused"
  search := fun _ => Except.error "unused"
  broker := fun _ => Except.ok c8Body
  submit := fun _ _ _ => Except.ok ()

def c8wEnv : Env where
  blob := fun _ => Except.error "unused"
  search := fun _ => Except.error "unused"
  broker := fun _ => Except.ok ⟨true, none, some "legacy text"⟩
  submit := fun _ _ _ => Except.ok ()

/-- Scenario with an accepted but numerically unparsable `Fact_score`. -/
def c10Article : String := "Paris is the capital of France."

def c10ExtractBody : BrokerBody :=
  ⟨true, some ⟨some "\x7b\"claims\": [\"Paris is the capital of France.\"]\x7d"⟩, none⟩

def c10ScoreBody : BrokerBody :=
  ⟨true, some ⟨some "\x7b\x27Fact_score\x27: \x27unknown\x27\x7d"⟩, none⟩

def c10BiasBody : BrokerBody := ⟨true, some ⟨some "\x7b\x27bias_score\x27: 5%\x7d"⟩, none⟩

def c10Env : Env where
  blob := fun _ => Except.ok (200, c10Article)
  search := fun _ => Except.ok (200, some 1000)
  broker := fun p =>
    if p = extractPrompt c10Article then Except.ok c10ExtractBody
    else if p = scorePrompt (Json.str c10Article) 1000 then Except.ok c10ScoreBody
    else if p = biasPrompt c10Article then Except.ok c10BiasBody
    else Except.error "unexpected prompt"
  submit := fun _ _ _ => Except.ok ()

def c10Payload : String :=
  "\x7b\"claims\":[\x7b\"claim\":\"Paris is the capital of France.\",\"score\":\"unknown%\"\x7d],\"overallScore\":\"0.00%\",\"biasScore\":\"5%\"\x7d"

/-! Helper lemmas on trace composition. -/

theorem pbind_fst_mem {α β : Type} (x : List Call × Except String α)
    (f : α → List Call × Except String β) {c : Call} (hc : c ∈ (pbind x f).1) :
    c ∈ x.1 ∨ ∃ a, x.2 = Except.ok a ∧ c ∈ (f a).1 := by
  obtain ⟨t, r⟩ := x
  cases r with
  | error e => exact Or.inl hc
  | ok a =>
    rcases List.mem_append.mp hc with h | h
    · exact Or.inl h
    · exact Or.inr ⟨a, rfl, h⟩

theorem pbind_snd_error {α β : Type} (x : List Call × Except String α)
    (f : α → List Call × Except String β) {e : String}
    (h : (pbind x f).2 = Except.error e) :
    x.2 = Except.error e ∨ ∃ a, x.2 = Except.ok a ∧ (f a).2 = Except.error e := by
  obtain ⟨t, r⟩ := x
  cases r with
  | error e2 => exact Or.inl (by simpa [pbind] using h)
  | ok a => exact Or.inr ⟨a, rfl, h⟩

theorem pbind_snd_ok {α β : Type} (x : List Call × Except String α)
    (f : α → List Call × Except String β) {b : β}
    (h : (pbind x f).2 = Except.ok b) :
    ∃ a, x.2 = Except.ok a ∧ (f a).2 = Except.ok b := by
  obtain ⟨t, r⟩ := x
  cases r with
  | error e => exact absurd h (by simp [pbind])
  | ok a => exact ⟨a, rfl, h⟩

theorem txOnly_pbind {α β : Type} (x : List Call × Except String α)
    (f : α → List Call × Except String β)
    (hx : ∀ c ∈ x.1, c.isChainTx = false)
    (hf : ∀ a, TxOnlyOnOk (f a)) : TxOnlyOnOk (pbind x f) := by
  intro e he c hc
  rcases pbind_fst_mem x f hc with h | ⟨a, ha, hfc⟩
  · exact hx c h
  · rcases pbind_snd_error x f he with h2 | ⟨a2, ha2, hfe⟩
    · rw [ha] at h2; cases h2
    · rw [ha] at ha2
      injection ha2 with haa
      subst haa
      exact hf a e hfe c hfc

theorem scoreLoop_noTx (env : Env) (cs : List Json) :
    ∀ c ∈ (scoreLoop env cs).1, c.isChainTx = false := by
  induction cs with
  | nil => intro c hc; simp [scoreLoop] at hc
  | cons claim rest ih =>
    intro c hc
    rcases pbind_fst_mem _ _ hc with h | ⟨total, _, h⟩
    · rcases List.mem_singleton.mp h with rfl
      rfl
    · rcases pbind_fst_mem _ _ h with h2 | ⟨score, _, h2⟩
      · rcases List.mem_singleton.mp h2 with rfl
        rfl
      · rcases pbind_fst_mem _ _ h2 with h3 | ⟨tail, _, h3⟩
        · exact ih c h3
        · simp at h3

theorem submit_txOnly (env : Env) (id : ℕ) (v p : String) :
    TxOnlyOnOk (submitTx env id v p) := by
  intro e he c hc
  unfold submitTx at he hc
  cases h : env.submit id v p with
  | error e2 => rw [h] at hc; simp at hc
  | ok u => rw [h] at he; simp at he

theorem handle_txOnly (env : Env) (id : ℕ) (uri : String) :
    TxOnlyOnOk (handleArticle env id uri) := by
  apply txOnly_pbind
  · intro c hc
    rcases List.mem_singleton.mp hc with rfl
    rfl
  · intro article
    apply txOnly_pbind
    · intro c hc
      rcases List.mem_singleton.mp hc with rfl
      rfl
    · intro claims
      apply txOnly_pbind
      · exact scoreLoop_noTx env claims
      · intro scored
        apply txOnly_pbind
        · intro c hc
          rcases List.mem_singleton.mp hc with rfl
          rfl
        · intro biasScore
          exact submit_txOnly env id _ _

theorem errorNoTx (env : Env) (id : ℕ) (uri : String) (e : String)
    (h : (handleArticle env id uri).2 = Except.error e) :
    ((handleArticle env id uri).1.all fun c => !c.isChainTx) = true := by
  rw [List.all_eq_true]
  intro c hc
  have hx := handle_txOnly env id uri e h c hc
  rw [hx]
  rfl

theorem scoreLoop_length (env : Env) :
    ∀ (cs : List Json) (scored : List (Json × String)),
      (scoreLoop env cs).2 = Except.ok scored → scored.length = cs.length := by
  intro cs
  induction cs with
  | nil =>
    intro scored h
    simp only [scoreLoop] at h
    injection h with h2
    rw [← h2]
    rfl
  | cons claim rest ih =>
    intro scored h
    rcases pbind_snd_ok _ _ h with ⟨total, _, h1⟩
    rcases pbind_snd_ok _ _ h1 with ⟨score, _, h2⟩
    rcases pbind_snd_ok _ _ h2 with ⟨tail, htail, h3⟩
    simp only at h3
    injection h3 with h4
    rw [← h4, List.length_cons, List.length_cons, ih tail htail]

theorem foldl_addOpt_some (qs : List Frac) :
    ∀ a : Frac, (qs.map some).foldl addOpt (some a) = some (qs.foldl Frac.add a) := by
  induction qs with
  | nil => intro a; rfl
  | cons q qs ih => intro a; exact ih (Frac.add a q)

theorem sumOpt_map_some (qs : List Frac) :
    sumOpt (qs.map some) = some (qs.foldl Frac.add ⟨0, 1⟩) :=
  foldl_addOpt_some qs ⟨0, 1⟩

/-- C1: for every list of scored claims whose score strings all parse, the
aggregation step computes `overallScore` as the unweighted arithmetic mean of
the parsed scores formatted to two decimals with a trailing percent sign; the
empty list yields "0.00%" and `[80%, 60%]` yields "70.00%". -/
theorem C1_overall_score (scored : List (Json × String)) (qs : List Frac)
    (h : (scored.map fun c => parseFloatJS c.2) = qs.map some) :
    overallScoreOf scored =
      toFixed2 (if qs.isEmpty then ⟨0, 1⟩ else fracMean qs) ++ "%" ∧
    overallScoreOf [] = "0.00%" ∧
    overallScoreOf [(Json.str "a", "80%"), (Json.str "b", "60%")] = "70.00%" := by
  refine ⟨?_, rfl, rfl⟩
  unfold overallScoreOf
  rw [h]
  cases qs with
  | nil => rfl
  | cons q qst =>
    have hs : sumOpt (some q :: List.map some qst) =
        some ((q :: qst).foldl Frac.add ⟨0, 1⟩) := sumOpt_map_some (q :: qst)
    simp [hs, jsOrZero, fracMean, Frac.ofNat]

theorem C1_witness :
    overallScoreOf [(Json.str "x", "80%"), (Json.str "y", "60%")] =
      toFixed2 (if ([⟨80, 1⟩, ⟨60, 1⟩] : List Frac).isEmpty then ⟨0, 1⟩
        else fracMean [⟨80, 1⟩, ⟨60, 1⟩]) ++ "%" ∧
    overallScoreOf [] = "0.00%" ∧
    overallScoreOf [(Json.str "a", "80%"), (Json.str "b", "60%")] = "70.00%" :=
  C1_overall_score [(Json.str "x", "80%"), (Json.str "y", "60%")] [⟨80, 1⟩, ⟨60, 1⟩] (by decide)

set_option maxRecDepth 40000 in
/-- C2: in the fixed end-to-end scenario (article about Paris, one extracted
claim, 50 000 000 search results, Fact_score 97%, bias_score 5%),
`handleArticle` for requestId 7 succeeds, its final call is a
`fulfillFactCheck` transaction with verdict "97.00%", and the submitted
explanation deserializes to the expected claims/overallScore/biasScore
object. -/
theorem C2_end_to_end :
    (handleArticle c2Env 7 "blob123").2 = Except.ok () ∧
    (handleArticle c2Env 7 "blob123").1.getLast? =
      some (Call.chainTx 7 "97.00%" c2Payload) ∧
    parseJson c2Payload = Except.ok c2Explanation :=
  ⟨rfl, rfl, rfl⟩

/-- C3, counterexample: when the broker's JSON `claims` array holds two
entries, `extractClaims` returns both — the extracted list is not truncated
to length at most 1. -/
theorem C3_counterexample :
    extractClaimsRes c3Env "article" = Except.ok [Json.str "a", Json.str "b"] ∧
    ¬ (∀ cs, extractClaimsRes c3Env "article" = Except.ok cs → cs.length ≤ 1) := by
  refine ⟨rfl, fun hall => ?_⟩
  have h2 := hall [Json.str "a", Json.str "b"] rfl
  simp at h2

/-- C3, amended: the "top 1" bound lives only in the prompt text; the code
applies no truncation.  Whenever the broker's reply parses to a `claims`
array `cs`, `extractClaims` returns exactly `cs`, and a successful scoring
loop scores every one of them. -/
theorem C3_no_truncation (env : Env) (article : String) (raw : BrokerBody)
    (cs : List Json) (scored : List (Json × String))
    (hb : env.broker (extractPrompt article) = Except.ok raw)
    (hp : parsedClaims raw = some cs)
    (hs : (scoreLoop env cs).2 = Except.ok scored) :
    extractClaimsRes env article = Except.ok cs ∧ scored.length = cs.length := by
  refine ⟨?_, scoreLoop_length env cs scored hs⟩
  simp only [extractClaimsRes, hb]
  unfold parsedClaims at hp
  by_cases h1 : trimJS (contentOf raw) = ""
  · rw [if_pos h1] at hp; cases hp
  · rw [if_neg h1] at hp
    rw [if_neg h1]
    cases h2 : matchGreedyBraces (contentOf raw) with
    | none => simp only [h2] at hp; cases hp
    | some m =>
      simp only [h2] at hp ⊢
      cases h3 : parseJson m with
      | error e2 => simp only [h3] at hp; cases hp
      | ok obj =>
        simp only [h3] at hp ⊢
        cases h4 : objGet obj "claims" with
        | none => simp only [h4] at hp; cases hp
        | some v =>
          cases v with
          | arr l =>
            simp only [h4, Option.some.injEq] at hp ⊢
            rw [hp]
          | null => simp only [h4] at hp; cases hp
          | bool b => simp only [h4] at hp; cases hp
          | num q => simp only [h4] at hp; cases hp
          | str s2 => simp only [h4] at hp; cases hp
          | obj fs => simp only [h4] at hp; cases hp

set_option maxRecDepth 40000 in
theorem C3_witness :
    extractClaimsRes c3wEnv "article" = Except.ok [Json.str "a", Json.str "b"] ∧
    ([(Json.str "a", "50%"), (Json.str "b", "50%")] : List (Json × String)).length =
      ([Json.str "a", Json.str "b"] : List Json).length :=
  C3_no_truncation c3wEnv "article" c3Body [Json.str "a", Json.str "b"]
    [(Json.str "a", "50%"), (Json.str "b", "50%")] rfl rfl rfl

/-- C4: score parsing accepts the double-quoted numeric form, the
single-quoted string form with a percent sign, and the single-quoted string
form without one, normalizing each to the canonical "73%". -/
theorem C4_score_normalization :
    parseFactScoreText "\x7b\"Fact_score\": 73\x7d" = Except.ok "73%" ∧
    parseFactScoreText "\x7b\x27Fact_score\x27: \"73%\"\x7d" = Except.ok "73%" ∧
    parseFactScoreText "\x7b\x27Fact_score\x27: \x2773\x27\x7d" = Except.ok "73%" :=
  ⟨rfl, rfl, rfl⟩

/-- C5: when the scoring reply's content holds no brace-delimited substring,
`scoreClaim` fails with the parse error, and a request whose handler fails
produces no fulfillment transaction. -/
theorem C5_no_brace (env : Env) (claim : Json) (total : ℤ) (raw : BrokerBody)
    (s : String) (id : ℕ) (uri : String) (e : String)
    (hb : env.broker (scorePrompt claim total) = Except.ok raw)
    (hs : raw.success = true) (hr : raw.response = some ⟨some s⟩)
    (hm : matchFirstBraces s = none)
    (hh : (handleArticle env id uri).2 = Except.error e) :
    scoreClaimRes env claim total = Except.error "No JSON found in DeepSeek response" ∧
    ((handleArticle env id uri).1.all fun c => !c.isChainTx) = true := by
  refine ⟨?_, errorNoTx env id uri e hh⟩
  simp [scoreClaimRes, hb, hs, hr, parseFactScoreText, hm]

set_option maxRecDepth 40000 in
theorem C5_witness :
    scoreClaimRes c5Env (Json.str "c") 5 = Except.error "No JSON found in DeepSeek response" ∧
    ((handleArticle c5Env 2 "u").1.all fun c => !c.isChainTx) = true :=
  C5_no_brace c5Env (Json.str "c") 5 c5ScoreBody "no json here" 2 "u"
    "No JSON found in DeepSeek response" rfl rfl rfl rfl rfl

/-- C6: when the blob-store fetch fails (thrown GET or non-success status),
the pipeline's only outbound call is that fetch — extraction, search, scoring
and bias are never invoked — and the handler fails. -/
theorem C6_fail_fast (env : Env) (id : ℕ) (uri : String)
    (h : exceptIsOk (fetchArticleRes env uri) = false) :
    (handleArticle env id uri).1 = [Call.blobGet uri] ∧
    exceptIsOk (handleArticle env id uri).2 = false := by
  cases hf : fetchArticleRes env uri with
  | ok a => rw [hf] at h; simp [exceptIsOk] at h
  | error e =>
    have hfa : fetchArticleByHash env uri = ([Call.blobGet uri], Except.error e) := by
      unfold fetchArticleByHash; rw [hf]
    constructor
    · show (pbind (fetchArticleByHash env uri) _).1 = _
      rw [hfa]
      rfl
    · show exceptIsOk (pbind (fetchArticleByHash env uri) _).2 = false
      rw [hfa]
      rfl

theorem C6_witness :
    (handleArticle c6Env 3 "missing").1 = [Call.blobGet "missing"] ∧
    exceptIsOk (handleArticle c6Env 3 "missing").2 = false :=
  C6_fail_fast c6Env 3 "missing" rfl

/-- C7: when any stage of `handleArticle` throws, the event handler merely
logs the error for the request — the trace is unchanged, no fulfillment
transaction exists in it, and nothing else is done. -/
theorem C7_dropped (env : Env) (id : ℕ) (uri : String) (e : String)
    (h : (handleArticle env id uri).2 = Except.error e) :
    onFactCheckRequested env id uri = ((handleArticle env id uri).1, some e) ∧
    ((handleArticle env id uri).1.all fun c => !c.isChainTx) = true := by
  refine ⟨?_, errorNoTx env id uri e h⟩
  unfold onFactCheckRequested
  rcases hh : handleArticle env id uri with ⟨t, r⟩
  rw [hh] at h
  simp only at h
  rw [h]

theorem C7_witness :
    onFactCheckRequested c7Env 4 "u" = ((handleArticle c7Env 4 "u").1, some "Walrus down") ∧
    ((handleArticle c7Env 4 "u").1.all fun c => !c.isChainTx) = true :=
  C7_dropped c7Env 4 "u" "Walrus down" rfl

/-- C8, counterexample: one legacy-style broker reply (no `response` object,
text only in `result`) is accepted by claim extraction but rejected by claim
scoring and by bias scoring — the legacy fallback exists only in
extraction. -/
theorem C8_counterexample :
    extractClaimsRes c8Env "a" = Except.ok [Json.str "Paris is old"] ∧
    scoreClaimRes c8Env (Json.str "Paris is old") 5 = Except.error "Bad broker response format" ∧
    biasScoreRes c8Env "a" = Except.error "No content in DeepSeek response for computeBiasScore" :=
  ⟨rfl, rfl, rfl⟩

/-- C8, amended: claim extraction reads `response.content` when present and
non-empty and otherwise falls back to the legacy `result` field, while claim
scoring and bias scoring read only `response.content` and fail when the
`response` object is absent. -/
theorem C8_content_selection (env : Env) (claim : Json) (total : ℤ)
    (article : String) (raw : BrokerBody) (s t : String)
    (h1 : raw.response = some ⟨some s⟩) (h2 : s ≠ "")
    (hb : env.broker (scorePrompt claim total) = Except.ok ⟨true, none, some t⟩)
    (hc : env.broker (biasPrompt article) = Except.ok ⟨true, none, some t⟩) :
    contentOf raw = s ∧
    contentOf ⟨raw.success, none, some t⟩ = t ∧
    scoreClaimRes env claim total = Except.error "Bad broker response format" ∧
    biasScoreRes env article = Except.error "No content in DeepSeek response for computeBiasScore" := by
  refine ⟨?_, rfl, ?_, ?_⟩
  · unfold contentOf
    rw [h1]
    simp [jsOrStr, h2]
  · simp [scoreClaimRes, hb]
  · simp [biasScoreRes, hc]

theorem C8_witness :
    contentOf ⟨true, some ⟨some "hello"⟩, none⟩ = "hello" ∧
    contentOf ⟨true, none, some "legacy text"⟩ = "legacy text" ∧
    scoreClaimRes c8wEnv (Json.str "c") 5 = Except.error "Bad broker response format" ∧
    biasScoreRes c8wEnv "article" = Except.error "No content in DeepSeek response for computeBiasScore" :=
  C8_content_selection c8wEnv (Json.str "c") 5 "article" ⟨true, some ⟨some "hello"⟩, none⟩
    "hello" "legacy text" rfl (by decide) rfl rfl

/-- C9: startup exits with status 1 — a non-zero code, before the listener is
ever registered — exactly when one of ALCHEMY_URL, RELAYER_PRIVATE_KEY,
FACTCHECK_CONTRACT, WALRUS_GATEWAY_URL is missing (falsy); with all four
present it proceeds to listen. -/
theorem C9_startup_check (e : EnvVars) :
    ((truthyEnv e.alchemyUrl = false ∨ truthyEnv e.relayerPrivateKey = false ∨
      truthyEnv e.factcheckContract = false ∨ truthyEnv e.walrusGatewayUrl = false) →
      startup e = StartupResult.exited 1 ∧ (1 : ℕ) ≠ 0) ∧
    ((truthyEnv e.alchemyUrl = true ∧ truthyEnv e.relayerPrivateKey = true ∧
      truthyEnv e.factcheckContract = true ∧ truthyEnv e.walrusGatewayUrl = true) →
      startup e = StartupResult.listening) := by
  constructor
  · intro h
    exact ⟨by unfold startup; rw [if_pos h], one_ne_zero⟩
  · rintro ⟨h1, h2, h3, h4⟩
    unfold startup
    rw [if_neg]
    simp [h1, h2, h3, h4]

theorem C9_witness :
    (startup ⟨none, some "w", some "k", some "c"⟩ = StartupResult.exited 1 ∧ (1 : ℕ) ≠ 0) ∧
    startup ⟨some "a", some "w", some "k", some "c"⟩ = StartupResult.listening :=
  ⟨(C9_startup_check ⟨none, some "w", some "k", some "c"⟩).1 (Or.inl rfl),
   (C9_startup_check ⟨some "a", some "w", some "k", some "c"⟩).2 ⟨rfl, rfl, rfl, rfl⟩⟩

set_option maxRecDepth 40000 in
/-- C10: a `Fact_score` that is a plain string with no numeric prefix is
accepted by score parsing as "unknown%", the pipeline raises no error, and
the fulfilled verdict is "0.00%" — the `|| 0` fallback silently coerces the
`NaN` mean, indistinguishable on-chain from an empty claim list. -/
theorem C10_nan_to_zero :
    scoreClaimRes c10Env (Json.str c10Article) 1000 = Except.ok "unknown%" ∧
    parseFloatJS "unknown%" = none ∧
    (handleArticle c10Env 9 "blob9").2 = Except.ok () ∧
    (handleArticle c10Env 9 "blob9").1.getLast? =
      some (Call.chainTx 9 "0.00%" c10Payload) ∧
    overallScoreOf [] = "0.00%" :=
  ⟨rfl, rfl, rfl, rfl, rfl⟩

end TrueCast
